import Mathlib

/-!
Verification development for the scalestack core (service registry,
configuration resolver, HTTP route matching and request dispatch).

The Python sources `scalestack/__init__.py` and `scalestack/http.py` are
shallowly embedded below: Python strings become `Str` (lists of characters),
Python dicts become association lists with insert-overwrite semantics,
raised exceptions become `Except` errors, and the handful of methods the
specification talks about become executable Lean functions that mirror the
source line by line.
-/

deriving instance DecidableEq for Except

namespace ScaleStack

/-- Python strings are modelled as lists of characters. -/
abbrev Str := List Char

/-- Coerce a Lean string literal into the `Str` model. -/
def str (s : String) : Str := s.data

/-- Lookup in a Python dict modelled as an association list
(first binding wins; `aset` keeps keys unique so this is the dict lookup). -/
def alookup {α β : Type} [DecidableEq α] : List (α × β) → α → Option β
  | [], _ => none
  | p :: t, k => if p.1 = k then some p.2 else alookup t k

/-- Python dict assignment `d[k] = v`: overwrite the binding in place if the
key is present, otherwise append a new binding. -/
def aset {α β : Type} [DecidableEq α] (d : List (α × β)) (k : α) (v : β) :
    List (α × β) :=
  if (alookup d k).isSome then
    d.map (fun p => if p.1 = k then (k, v) else p)
  else d ++ [(k, v)]

/-! ## scalestack/http.py : route bindings and matching -/

/-- Embeds `Handler` objects from `scalestack/http.py`. The
`request_class`, `args` and `kwargs` payload is irrelevant to routing, so it
is collapsed into an opaque `tag` that only serves to distinguish bindings. -/
structure Handler where
  host : Option Str
  path : Str
  tag : Nat
deriving DecidableEq, Repr

/-- Embeds `Handler.__init__` path normalization: a path not starting with
`/` gets one prepended. Python `path[0]` on an empty string raises
IndexError, modelled by `none`. -/
def mkHandlerPath (path : Str) : Option Str :=
  match path with
  | [] => none
  | c :: _ => some (if c = '/' then path else '/' :: path)

/-- The loop of `Service.match_handler`, scanning bindings in registration
order with the current best `m`. Mirrors the Python line by line:
a binding is skipped when `host != handler.host and (exact or handler.host
is not None)`; in exact mode an equal path returns immediately; otherwise a
binding is skipped when the held match has a strictly longer path, and kept
when the request path starts with the binding's path. -/
def match_loop (host : Option Str) (path : Str) (exact : Bool) :
    List Handler → Option Handler → Option Handler
  | [], m => m
  | h :: t, m =>
    if host ≠ h.host ∧ (exact = true ∨ h.host ≠ none) then
      match_loop host path exact t m
    else if exact then
      if path = h.path then some h else match_loop host path exact t m
    else if (match m with
             | some mm => decide (mm.path.length > h.path.length)
             | none => false) then
      match_loop host path exact t m
    else if h.path.isPrefixOf path then
      match_loop host path exact t (some h)
    else
      match_loop host path exact t m

/-- Embeds `Service.match_handler`: find the best match for a host and path
over the registered handler list. -/
def match_handler (hs : List Handler) (host : Option Str) (path : Str)
    (exact : Bool) : Option Handler :=
  match_loop host path exact hs none

/-- Exceptions raised by the embedded `http.py` operations. -/
inductive PyExc where
  | handlerAlreadyExists (msg : Str)
  | typeError
deriving DecidableEq, Repr

/-- Embeds the expression `'%s %s' % handler.host` at `http.py:68`: the
format string has two placeholders but `handler.host` (a string or `None`,
never a tuple) supplies a single argument, so CPython raises
`TypeError: not enough arguments for format string` before the exception
object is even constructed. -/
def percentFormatTwoOne (_value : Option Str) : Except PyExc Str :=
  .error .typeError

/-- Embeds `Service.add_handler`: refuse a binding whose exact (host, path)
pair already matches, otherwise append it to the registration list. The
refusal path evaluates `'%s %s' % handler.host` to build the message. -/
def add_handler (hs : List Handler) (h : Handler) :
    Except PyExc (List Handler) :=
  match match_handler hs h.host h.path true with
  | some _ =>
    match percentFormatTwoOne h.host with
    | .error e => .error e
    | .ok msg => .error (.handlerAlreadyExists (msg ++ h.path))
  | none => .ok (hs ++ [h])

/-! ## scalestack/http.py : status signals and dispatch -/

/-- A response header list: ordered (name, value) pairs, duplicates allowed. -/
abbrev Headers := List (Str × Str)

/-- Embeds `header_exists`: scan the list for a header with the given name. -/
def header_exists (name : Str) (hs : Headers) : Bool :=
  match hs with
  | [] => false
  | h :: t => if h.1 = name then true else header_exists name t

/-- The data carried by a raised `StatusCode` exception: status line,
response headers and body. -/
structure StatusVal where
  status : Str
  headers : Headers
  body : Str
deriving DecidableEq, Repr

/-- Embeds `StatusCode.__init__` for a subclass with class attribute
`status`: `self.headers = headers or []` (in Python both `None` and `[]`
yield `[]`); `self.body = body or self.status` (both `None` and the empty
string yield the status line); a `Content-Type` header is appended only
when `body is None` and none is present yet. -/
def mkStatusCode (status : Str) (body : Option Str) (headers : Option Headers) :
    StatusVal :=
  let hs0 := headers.getD []
  { status := status
    headers :=
      if body = none ∧ header_exists (str "Content-Type") hs0 = false then
        hs0 ++ [(str "Content-Type", str "text/plain")]
      else hs0
    body :=
      match body with
      | none => status
      | some b => if b = [] then status else b }

/-- Embeds raising `BadRequest(body)`: class attribute `status` is
`'400 Bad Request'`. -/
def mkBadRequest (body : Option Str) (headers : Option Headers) : StatusVal :=
  mkStatusCode (str "400 Bad Request") body headers

/-- Embeds raising `NotFound()` as `Service.__call__` does for an unmatched
request: class attribute `status` is `'404 Not Found'`, no body, no
headers. -/
def mkNotFound : StatusVal :=
  mkStatusCode (str "404 Not Found") none none

/-- The WSGI environment fields `Service.__call__` consults. -/
structure Env where
  httpHost : Option Str
  pathInfo : Option Str
  serverSoftware : Str
deriving DecidableEq, Repr

/-- Embeds `host.rsplit(':', 1)[0]`: drop the last `:` and everything after
it, or keep the whole string when it has no `:`. -/
def rsplitPortFst (s : Str) : Str :=
  let r := s.reverse
  if r.contains ':' then ((r.dropWhile (· ≠ ':')).drop 1).reverse else s

/-- The request host as computed by `Service.__call__`: `HTTP_HOST` with a
trailing `:port` stripped, or `None` when absent. -/
def envHost (env : Env) : Option Str := env.httpHost.map rsplitPortFst

/-- The request path as computed by `Service.__call__`:
`env.get('PATH_INFO', '/')`. -/
def envPath (env : Env) : Str := env.pathInfo.getD (str "/")

/-- The three ways the body of the `try` block in `Service.__call__` can
finish once a handler has been matched: the request runs to completion
having already started response `r`, a `StatusCode` is raised, or any other
fault is raised (carrying its detail text). -/
inductive Outcome where
  | ret (r : StatusVal)
  | statusExc (e : StatusVal)
  | fault (detail : Str)

/-- A wire-level response: the status line and headers passed to `start`,
followed by the returned body. -/
structure Response where
  status : Str
  headers : Headers
  body : Str
deriving DecidableEq, Repr

/-- Embeds `Service.__call__`: extract host (port-stripped) and path,
match a handler; no handler raises `NotFound()` inside the `try`. A raised
`StatusCode` is answered with its own status, headers and body, with a
`Server` header inserted at the front unless one is already present. Any
other fault is answered with `500 Internal Server Error`, a lone `Server`
header and an empty body, whatever the fault's detail was. The behaviour of
the matched handler's `request_class(...).run()` is supplied as the
`runOf` oracle. -/
def service_call (hs : List Handler) (runOf : Handler → Outcome) (env : Env) :
    Response :=
  let outcome :=
    match match_handler hs (envHost env) (envPath env) false with
    | none => Outcome.statusExc mkNotFound
    | some h => runOf h
  match outcome with
  | .ret r => { status := r.status, headers := r.headers, body := r.body }
  | .statusExc e =>
    { status := e.status
      headers :=
        if header_exists (str "Server") e.headers then e.headers
        else (str "Server", env.serverSoftware) :: e.headers
      body := e.body }
  | .fault _ =>
    { status := str "500 Internal Server Error"
      headers := [(str "Server", env.serverSoftware)]
      body := [] }

/-! ## scalestack/http.py : Request query-parameter parsing -/

/-- Python `str.split(sep)` with an explicit one-character separator:
`''.split(sep)` is `['']`, and consecutive separators produce empty
fields. -/
def pySplit (sep : Char) : Str → List Str
  | [] => [[]]
  | c :: rest =>
    let r := pySplit sep rest
    if c = sep then [] :: r
    else
      match r with
      | [] => [[c]]
      | h :: t => (c :: h) :: t

/-- Python `s.split(sep, 1)`: the part before the first separator, and the
part after it when the separator occurs (`none` when it does not, which is
what `len(parameter) == 1` detects in the source). -/
def pySplitOnce (sep : Char) : Str → Str × Option Str
  | [] => ([], none)
  | c :: rest =>
    if c = sep then ([], some rest)
    else
      let p := pySplitOnce sep rest
      (c :: p.1, p.2)

/-- The whitespace characters Python's no-argument `str.strip()` removes. -/
def isPySpace (c : Char) : Bool :=
  c = ' ' ∨ c = '\t' ∨ c = '\n' ∨ c = '\x0d' ∨ c = Char.ofNat 11 ∨
    c = Char.ofNat 12

/-- Python `str.strip()`: drop whitespace from both ends. -/
def pyStrip (s : Str) : Str :=
  ((s.dropWhile isPySpace).reverse.dropWhile isPySpace).reverse

/-- The query-parameter mapping: a Python dict from key to value, where a
key given without `=` carries `None`. -/
abbrev ParamMap := List (Str × Option Str)

/-- The body of the loop in `Request._parse_parameters` for one `&`-field:
split on the first `=`; a lone key is stored stripped with value `None`,
otherwise both key and value are stored stripped. -/
def paramStep (d : ParamMap) (chunk : Str) : ParamMap :=
  let p := pySplitOnce '=' chunk
  match p.2 with
  | none => aset d (pyStrip p.1) none
  | some v => aset d (pyStrip p.1) (some (pyStrip v))

/-- Embeds `Request._parse_parameters` (first call, `self._parameters`
still unset): `env.get('QUERY_STRING')` absent leaves the dict empty;
otherwise every `&`-separated field is parsed by `paramStep`. -/
def parse_parameters (queryString : Option Str) : ParamMap :=
  match queryString with
  | none => []
  | some qs => (pySplit '&' qs).foldl paramStep []

/-! ## scalestack/__init__.py : configuration store

`Core.config` is a dict mapping a service name to a dict of option keys
(a key may be the shared form `option` or the local form `'_' + option`).
Config values stay abstract in the type parameter `V`. A service's
`CONFIG_OPTIONS` declaration (`sys.modules[service].CONFIG_OPTIONS`,
mapping a declared option name to its compiled default) is modelled by
the import table `modules : Str → Option (Str → Option V)`: `none` when the
module cannot be imported, otherwise the option-to-default map with `none`
for undeclared options. That table stands in for the `load_service` lookup
`verify_config` performs before consulting `CONFIG_OPTIONS`. -/

/-- Exceptions raised by the embedded config operations:
`ImportError` from `load_service` and `InvalidConfigOption` from
`verify_config`. -/
inductive CfgErr where
  | importError
  | invalidConfigOption
deriving DecidableEq, Repr

/-- A `Core.config` dict: service name to option-key/value dict. -/
abbrev Config (V : Type) := List (Str × List (Str × V))

/-- Embeds `Core.verify_config`: load the service (failure is
`ImportError`) and require the option to be declared in the module's
`CONFIG_OPTIONS` (failure is `InvalidConfigOption`); on success return
the option's compiled default. -/
def verify_config {V : Type} (modules : Str → Option (Str → Option V))
    (service opt : Str) : Except CfgErr V :=
  match modules service with
  | none => .error .importError
  | some opts =>
    match opts opt with
    | none => .error .invalidConfigOption
    | some dflt => .ok dflt

/-- Embeds `Core.get_config`: after `verify_config`, when the service has a
config section, return the local form `'_' + option` if present, else the
shared form `option` if present; in every remaining case return the
declared default. -/
def get_config {V : Type} (modules : Str → Option (Str → Option V))
    (config : Config V) (service opt : Str) : Except CfgErr V :=
  match verify_config modules service opt with
  | .error e => .error e
  | .ok dflt =>
    match alookup config service with
    | some svcCfg =>
      match alookup svcCfg ('_' :: opt) with
      | some v => .ok v
      | none =>
        match alookup svcCfg opt with
        | some v => .ok v
        | none => .ok dflt
    | none => .ok dflt

/-- Embeds `Core.set_config`: after `verify_config`, create an empty
section for the service if it has none, then write the value when
`overwrite` is true **or the option name is not a key of the top-level
config dict** — the source line `if overwrite or option not in
self.config:` tests `self.config` (keyed by service names), not
`self.config[service]`. -/
def set_config {V : Type} (modules : Str → Option (Str → Option V))
    (config : Config V) (service opt : Str) (v : V) (overwrite : Bool) :
    Except CfgErr (Config V) :=
  match verify_config modules service opt with
  | .error e => .error e
  | .ok _ =>
    let config :=
      if (alookup config service).isSome then config
      else config ++ [(service, [])]
    if overwrite = true ∨ (alookup config opt).isNone then
      let svcCfg := (alookup config service).getD []
      .ok (aset config service (aset svcCfg opt v))
    else .ok config

/-! ## scalestack/__init__.py : service registry

`Core.services` maps a service name to the core itself (under
`'scalestack'`), an imported service class, or a constructed instance.
A constructor body is modelled as a `CtorProg`: the sequence of registry
calls (`core.start_service` / `core.get_service`) it performs before
returning. The import system is the table `im : Str → Option CtorProg`,
giving the constructor program of `sys.modules[service].Service` when the
module imports, and `none` when it does not. Because `start_service`,
`load_service`, `get_service` and a constructor call each other, the
embedding threads an explicit fuel bound: `RegErr.outOfFuel` means the
nested call chain outran the given budget, which is how unbounded
recursion shows up in a total model. -/

mutual
/-- An `Entry` in `Core.services`: the core handle, an imported class
(carrying its constructor program), or a constructed instance (carrying
the list of entries its constructor observed through `get_service`). -/
inductive Entry where
  | core
  | cls (prog : CtorProg)
  | inst (obs : List Entry)

/-- A constructor body: the registry calls it performs, in order. -/
inductive CtorProg where
  | ret
  | callStart (s : Str) (k : CtorProg)
  | callGet (s : Str) (k : CtorProg)
end

/-- The registry state: `Core.services` and `Core.running`. -/
structure RegSt where
  services : List (Str × Entry)
  running : Bool

/-- Errors of the embedded registry operations. `outOfFuel` marks a call
chain deeper than the fuel budget; `typeError` models Python calling a
non-class entry with one argument (`self.services[service](self)` when the
entry is not a class); `importError` mirrors the `ImportError` raised by
`load_service`; `keyError` marks dict accesses the source assumes to
succeed. -/
inductive RegErr where
  | outOfFuel
  | importError
  | typeError
  | keyError
deriving DecidableEq, Repr

mutual
/-- Embeds `Core.load_service`: already-present services are left alone;
otherwise the module is imported and its `Service` class stored (failure
is `ImportError`); when the core is running the service is then
started. -/
def load_service (im : Str → Option CtorProg) :
    Nat → RegSt → Str → Except RegErr RegSt
  | 0, _, _ => .error .outOfFuel
  | fuel + 1, st, s =>
    if (alookup st.services s).isSome then .ok st
    else
      match im s with
      | none => .error .importError
      | some prog =>
        let st' : RegSt := { st with services := aset st.services s (.cls prog) }
        if st'.running then start_service im fuel st' s else .ok st'

/-- Embeds `Core.start_service`: load the service if absent, then — unless
it is the core itself — evaluate `self.services[service](self)` and store
the result back under the service's name. Calling a class runs its
constructor; calling the core or an already-constructed instance with one
argument is a `TypeError`. -/
def start_service (im : Str → Option CtorProg) :
    Nat → RegSt → Str → Except RegErr RegSt
  | 0, _, _ => .error .outOfFuel
  | fuel + 1, st, s =>
    match
      (if (alookup st.services s).isSome then .ok st
       else load_service im fuel st s : Except RegErr RegSt) with
    | .error e => .error e
    | .ok st' =>
      if s = str "scalestack" then .ok st'
      else
        match alookup st'.services s with
        | some (.cls prog) =>
          match run_ctor im fuel st' prog with
          | .error e => .error e
          | .ok (st'', obs) =>
            .ok { st'' with services := aset st''.services s (.inst obs) }
        | some (.inst _) => .error .typeError
        | some .core => .error .typeError
        | none => .error .keyError

/-- Embeds `Core.get_service`: load the service if absent and return its
registry entry as it stands — class, instance, or core. -/
def get_service (im : Str → Option CtorProg) :
    Nat → RegSt → Str → Except RegErr (RegSt × Entry)
  | 0, _, _ => .error .outOfFuel
  | fuel + 1, st, s =>
    match
      (if (alookup st.services s).isSome then .ok st
       else load_service im fuel st s : Except RegErr RegSt) with
    | .error e => .error e
    | .ok st' =>
      match alookup st'.services s with
      | some e => .ok (st', e)
      | none => .error .keyError

/-- Run a constructor body: perform its registry calls in order and return
the updated state together with the entries it observed via
`get_service`. -/
def run_ctor (im : Str → Option CtorProg) :
    Nat → RegSt → CtorProg → Except RegErr (RegSt × List Entry)
  | 0, _, _ => .error .outOfFuel
  | _ + 1, st, .ret => .ok (st, [])
  | fuel + 1, st, .callStart s k =>
    match start_service im fuel st s with
    | .error e => .error e
    | .ok st' => run_ctor im fuel st' k
  | fuel + 1, st, .callGet s k =>
    match get_service im fuel st s with
    | .error e => .error e
    | .ok (st', e) =>
      match run_ctor im fuel st' k with
      | .error err => .error err
      | .ok (st'', obs) => .ok (st'', e :: obs)
end

/-! ## Specification-level description of route resolution

`match_handler` in non-exact mode is characterised below: it returns the
LAST binding, in registration order, among those whose host filter matches
and whose path is a prefix of the request path of maximal length. These
definitions follow the specification's vocabulary ("bindings whose
host-filter matches", "longest path-prefix", tie-breaking) and are related
to the source embedding by proof. -/

/-- A binding's host filter accepts the request host: `None` filters accept
any host, otherwise the host must be equal. -/
def hostOk (host : Option Str) (h : Handler) : Bool :=
  decide (host = h.host ∨ h.host = none)

/-- A binding competes for a request: its host filter accepts the host and
its path is a prefix of the request path. -/
def isCandidate (host : Option Str) (path : Str) (h : Handler) : Bool :=
  hostOk host h && h.path.isPrefixOf path

/-- The bindings competing for a request, in registration order. -/
def candidates (hs : List Handler) (host : Option Str) (path : Str) :
    List Handler :=
  hs.filter (isCandidate host path)

/-- One step of keeping the better of the held match and the next
candidate: a strictly longer held path wins, otherwise the newcomer
replaces it. -/
def bestStep (m : Option Handler) (h : Handler) : Option Handler :=
  match m with
  | none => some h
  | some mm => if mm.path.length > h.path.length then some mm else some h

/-- The length of the longest path among a list of bindings. -/
def maxPathLen (cs : List Handler) : Nat :=
  cs.foldr (fun h acc => max h.path.length acc) 0

/-- The last binding among those of maximal path length. -/
def lastBest (cs : List Handler) : Option Handler :=
  (cs.filter (fun h => decide (h.path.length = maxPathLen cs))).getLast?

theorem match_loop_eq_foldl (host : Option Str) (path : Str) :
    ∀ (hs : List Handler) (m : Option Handler),
      match_loop host path false hs m =
        (candidates hs host path).foldl bestStep m := by
  intro hs
  induction hs with
  | nil => intro m; rfl
  | cons h t ih =>
    intro m
    have hcand : candidates (h :: t) host path =
        if isCandidate host path h then h :: candidates t host path
        else candidates t host path := by
      simp [candidates, List.filter_cons]
    by_cases hskip : host ≠ h.host ∧ (false = true ∨ h.host ≠ none)
    · have hok : hostOk host h = false := by
        simp only [hostOk, decide_eq_false_iff_not]
        push_neg
        exact ⟨hskip.1, hskip.2.resolve_left (by simp)⟩
      have : isCandidate host path h = false := by
        simp [isCandidate, hok]
      rw [hcand, if_neg (by simp [this])]
      simp only [match_loop, if_pos hskip]
      exact ih m
    · have hok : hostOk host h = true := by
        simp only [hostOk, decide_eq_true_eq]
        by_cases h1 : host = h.host
        · exact Or.inl h1
        · right
          by_contra h2
          exact hskip ⟨h1, Or.inr h2⟩
      simp only [match_loop, if_neg hskip, if_neg (Bool.false_ne_true)]
      by_cases hlen : (match m with
          | some mm => decide (mm.path.length > h.path.length)
          | none => false) = true
      · rw [if_pos hlen]
        obtain ⟨mm, hmm⟩ : ∃ mm, m = some mm := by
          cases m with
          | none => simp at hlen
          | some mm => exact ⟨mm, rfl⟩
        have hgt : mm.path.length > h.path.length := by
          rw [hmm] at hlen; simpa using hlen
        by_cases hpre : h.path.isPrefixOf path
        · have : isCandidate host path h = true := by simp [isCandidate, hok, hpre]
          rw [hcand, if_pos this]
          rw [List.foldl_cons]
          have : bestStep m h = m := by
            rw [hmm]; simp [bestStep, hgt]
          rw [this]
          exact ih m
        · have : isCandidate host path h = false := by
            simp [isCandidate, hok]
            exact Bool.of_not_eq_true hpre
          rw [hcand, if_neg (by simp [this])]
          exact ih m
      · rw [if_neg hlen]
        have hstep : bestStep m h = some h := by
          cases m with
          | none => rfl
          | some mm =>
            have hle : ¬ mm.path.length > h.path.length := by
              intro hgt
              exact hlen (by simp [hgt])
            simp [bestStep, hle]
        by_cases hpre : h.path.isPrefixOf path
        · rw [if_pos hpre]
          have : isCandidate host path h = true := by simp [isCandidate, hok, hpre]
          rw [hcand, if_pos this, List.foldl_cons, hstep]
          exact ih (some h)
        · rw [if_neg hpre]
          have : isCandidate host path h = false := by
            simp [isCandidate, hok]
            exact Bool.of_not_eq_true hpre
          rw [hcand, if_neg (by simp [this])]
          exact ih m

theorem getLast?_append_singleton {α : Type} (l : List α) (a : α) :
    (l ++ [a]).getLast? = some a := by
  induction l with
  | nil => rfl
  | cons x t ih =>
    rw [List.cons_append]
    cases t with
    | nil => rfl
    | cons y u => simpa [List.getLast?_cons_cons] using ih

theorem mem_of_getLast?_eq_some {α : Type} {l : List α} {a : α}
    (h : l.getLast? = some a) : a ∈ l := by
  induction l with
  | nil => simp at h
  | cons x t ih =>
    cases t with
    | nil =>
      simp only [List.getLast?_singleton, Option.some.injEq] at h
      simp [h]
    | cons y u =>
      rw [List.getLast?_cons_cons] at h
      exact List.mem_cons_of_mem x (ih h)

theorem getLast?_eq_some_of_ne_nil {α : Type} {l : List α} (h : l ≠ []) :
    ∃ a, l.getLast? = some a := by
  induction l with
  | nil => exact absurd rfl h
  | cons x t ih =>
    cases t with
    | nil => exact ⟨x, rfl⟩
    | cons y u =>
      obtain ⟨a, ha⟩ := ih (by simp)
      exact ⟨a, by rw [List.getLast?_cons_cons]; exact ha⟩

theorem foldr_maxPathLen (cs : List Handler) (s : Nat) :
    cs.foldr (fun h acc => max h.path.length acc) s = max (maxPathLen cs) s := by
  induction cs with
  | nil => simp [maxPathLen]
  | cons h t ih => simp only [maxPathLen, List.foldr_cons] at *; rw [ih]; omega

theorem maxPathLen_cons (h : Handler) (t : List Handler) :
    maxPathLen (h :: t) = max h.path.length (maxPathLen t) := rfl

theorem maxPathLen_append_singleton (cs : List Handler) (h : Handler) :
    maxPathLen (cs ++ [h]) = max (maxPathLen cs) h.path.length := by
  simp only [maxPathLen, List.foldr_append, List.foldr_cons, List.foldr_nil]
  rw [show (List.foldr (fun h acc => max h.path.length acc) (max h.path.length 0) cs
    = max (maxPathLen cs) (max h.path.length 0)) from foldr_maxPathLen cs _]
  simp only [maxPathLen]
  omega

theorem le_maxPathLen {x : Handler} {cs : List Handler} (hx : x ∈ cs) :
    x.path.length ≤ maxPathLen cs := by
  induction cs with
  | nil => simp at hx
  | cons h t ih =>
    rw [maxPathLen_cons]
    rcases List.mem_cons.mp hx with h1 | h2
    · subst h1; omega
    · have := ih h2; omega

theorem maxPathLen_attained : ∀ (cs : List Handler), cs ≠ [] →
    ∃ x ∈ cs, x.path.length = maxPathLen cs := by
  intro cs
  induction cs with
  | nil => intro h; exact absurd rfl h
  | cons h t ih =>
    intro _
    by_cases ht : t = []
    · subst ht
      exact ⟨h, List.mem_singleton.mpr rfl, by rw [maxPathLen_cons]; simp [maxPathLen]⟩
    · obtain ⟨y, hy, hylen⟩ := ih ht
      by_cases hcmp : maxPathLen t ≤ h.path.length
      · exact ⟨h, List.mem_cons_self h t, by rw [maxPathLen_cons]; omega⟩
      · exact ⟨y, List.mem_cons_of_mem h hy, by rw [maxPathLen_cons]; omega⟩

theorem foldl_bestStep_eq_lastBest : ∀ cs : List Handler,
    cs.foldl bestStep none = lastBest cs := by
  intro cs
  induction cs using List.reverseRecOn with
  | nil => rfl
  | append_singleton cs h ih =>
    rw [List.foldl_append, List.foldl_cons, List.foldl_nil, ih]
    by_cases hcs : cs = []
    · subst hcs
      simp only [lastBest, List.filter_nil, List.getLast?_nil, bestStep]
      rw [show maxPathLen ([] ++ [h]) = h.path.length from by
        rw [maxPathLen_append_singleton]; simp [maxPathLen]]
      simp
    · obtain ⟨b, hb⟩ := getLast?_eq_some_of_ne_nil (l :=
        cs.filter (fun x => decide (x.path.length = maxPathLen cs)))
        (by
          obtain ⟨x, hx, hxlen⟩ := maxPathLen_attained cs hcs
          intro hnil
          have : x ∈ cs.filter (fun x => decide (x.path.length = maxPathLen cs)) :=
            List.mem_filter.mpr ⟨hx, by simp [hxlen]⟩
          rw [hnil] at this
          simp at this)
      have hbmem := List.mem_filter.mp (mem_of_getLast?_eq_some hb)
      have hblen : b.path.length = maxPathLen cs := by
        have := hbmem.2
        simpa using this
      rw [show lastBest cs = some b from hb]
      by_cases hgt : b.path.length > h.path.length
      · have hmax : maxPathLen (cs ++ [h]) = maxPathLen cs := by
          rw [maxPathLen_append_singleton]; omega
        simp only [lastBest, hmax, List.filter_append]
        rw [show ([h].filter (fun x => decide (x.path.length = maxPathLen cs))) = [] from by
          simp; omega]
        rw [List.append_nil]
        rw [show (cs.filter (fun x => decide (x.path.length = maxPathLen cs))).getLast? = some b
          from hb]
        simp [bestStep, hgt]
      · have hmax : maxPathLen (cs ++ [h]) = h.path.length := by
          rw [maxPathLen_append_singleton]; omega
        simp only [lastBest, hmax, List.filter_append]
        rw [show ([h].filter (fun x => decide (x.path.length = h.path.length))) = [h] from by
          simp]
        rw [getLast?_append_singleton]
        simp [bestStep, hgt]

theorem match_handler_eq_lastBest (hs : List Handler) (host : Option Str)
    (path : Str) :
    match_handler hs host path false = lastBest (candidates hs host path) := by
  rw [match_handler, match_loop_eq_foldl, foldl_bestStep_eq_lastBest]

/-! ## Dict lemmas and the query-parsing characterisation -/

theorem alookup_append {α β : Type} [DecidableEq α] (l1 l2 : List (α × β))
    (k : α) :
    alookup (l1 ++ l2) k =
      match alookup l1 k with
      | some v => some v
      | none => alookup l2 k := by
  induction l1 with
  | nil => rfl
  | cons p t ih => by_cases hp : p.1 = k <;> simp [alookup, hp, ih]

theorem alookup_map_overwrite {α β : Type} [DecidableEq α]
    (d : List (α × β)) (k : α) (v : β) (k' : α) :
    alookup (d.map (fun p => if p.1 = k then (k, v) else p)) k' =
      if k' = k then (alookup d k).map (fun _ => v) else alookup d k' := by
  induction d generalizing k' with
  | nil => simp [alookup]
  | cons p t ih =>
    by_cases hp : p.1 = k
    · by_cases hk : k' = k
      · subst hk
        simp [alookup, hp, ih]
      · have hpk : ¬ p.1 = k' := by
          rw [hp]
          exact fun h => hk h.symm
        simp [alookup, hp, hk, hpk, ih, Ne.symm hk]
    · by_cases hpk : p.1 = k'
      · have hk : ¬ k' = k := fun h => hp (hpk.trans h)
        simp [alookup, hp, hpk, hk]
      · simp [alookup, hp, hpk, ih]

theorem alookup_aset {α β : Type} [DecidableEq α] (d : List (α × β)) (k : α)
    (v : β) (k' : α) :
    alookup (aset d k v) k' = if k' = k then some v else alookup d k' := by
  unfold aset
  by_cases hpresent : (alookup d k).isSome
  · rw [if_pos hpresent, alookup_map_overwrite]
    obtain ⟨w, hw⟩ := Option.isSome_iff_exists.mp hpresent
    by_cases hk : k' = k <;> simp [hk, hw]
  · rw [if_neg hpresent, alookup_append]
    have hnone : alookup d k = none := Option.not_isSome_iff_eq_none.mp hpresent
    by_cases hk : k' = k
    · subst hk
      simp [hnone, alookup]
    · cases halt : alookup d k' <;> simp [halt, alookup, hk, Ne.symm hk]

/-- The per-field parse the specification describes: the part before the
first `=` (stripped) is the key; a field with no `=` carries the null
value, otherwise the part after the first `=` (stripped). -/
def parsePair (chunk : Str) : Str × Option Str :=
  let p := pySplitOnce '=' chunk
  (pyStrip p.1, p.2.map pyStrip)

/-- The value the last field with a given key assigns: Python dict
semantics over a sequence of writes. -/
def lastAssoc (ps : List (Str × Option Str)) (k : Str) : Option (Option Str) :=
  alookup ps.reverse k

theorem paramStep_eq_aset (d : ParamMap) (chunk : Str) :
    paramStep d chunk = aset d (parsePair chunk).1 (parsePair chunk).2 := by
  unfold paramStep parsePair
  cases h : (pySplitOnce '=' chunk).2 <;> simp [h]

theorem pySplitOnce_none_fst {sep : Char} : ∀ {s : Str},
    (pySplitOnce sep s).2 = none → (pySplitOnce sep s).1 = s := by
  intro s
  induction s with
  | nil => intro _; rfl
  | cons c t ih =>
    intro h
    by_cases hc : c = sep
    · simp [pySplitOnce, hc] at h
    · simp only [pySplitOnce, if_neg hc] at h ⊢
      rw [ih h]

theorem foldl_paramStep_eq : ∀ (chunks : List Str) (d : ParamMap),
    chunks.foldl paramStep d =
      (chunks.map parsePair).foldl (fun d p => aset d p.1 p.2) d := by
  intro chunks
  induction chunks with
  | nil => intro d; rfl
  | cons c t ih =>
    intro d
    rw [List.foldl_cons, List.map_cons, List.foldl_cons, ih, paramStep_eq_aset]

theorem alookup_foldl_aset (ps : List (Str × Option Str)) :
    ∀ (d : ParamMap) (k : Str),
      alookup (ps.foldl (fun d p => aset d p.1 p.2) d) k =
        match lastAssoc ps k with
        | some v => some v
        | none => alookup d k := by
  induction ps with
  | nil => intro d k; rfl
  | cons p t ih =>
    intro d k
    rw [List.foldl_cons, ih]
    unfold lastAssoc
    rw [List.reverse_cons, alookup_append t.reverse [p] k]
    cases hlt : alookup t.reverse k with
    | some v => rfl
    | none =>
      rw [alookup_aset]
      by_cases hk : p.1 = k <;> simp [alookup, hk, Ne.symm, eq_comm]

theorem parse_ne_nil_invariant : ∀ (chunks : List Str) (d : ParamMap),
    d ≠ [] → chunks.foldl paramStep d ≠ [] := by
  intro chunks
  induction chunks with
  | nil => intro d hd; simpa using hd
  | cons c t ih =>
    intro d hd
    rw [List.foldl_cons]
    apply ih
    rw [paramStep_eq_aset]
    unfold aset
    by_cases hp : (alookup d (parsePair c).1).isSome
    · rw [if_pos hp]
      simpa using hd
    · rw [if_neg hp]
      simp

theorem pySplit_ne_nil (sep : Char) : ∀ (s : Str), pySplit sep s ≠ [] := by
  intro s
  induction s with
  | nil => simp [pySplit]
  | cons c t ih =>
    simp only [pySplit]
    by_cases hc : c = sep
    · simp [hc]
    · rw [if_neg hc]
      cases h : pySplit sep t with
      | nil => simp
      | cons x u => simp

/-! ## Registry scenarios: a constructor that re-requests its own service -/

/-- A constructor that calls `core.start_service` on its own service. -/
def aProg : CtorProg := .callStart (str "a") .ret

/-- A constructor that calls `core.get_service` on its own service. -/
def gProg : CtorProg := .callGet (str "g") .ret

/-- An import table with two services: `a` whose constructor re-requests
`a` via `start_service`, and `g` whose constructor re-requests `g` via
`get_service`. -/
def im1 : Str → Option CtorProg := fun s =>
  if s = str "a" then some aProg
  else if s = str "g" then some gProg
  else none

/-- The registry right after `Core.run` set `running`: only the core
handle is registered. -/
def st0 : RegSt := ⟨[(str "scalestack", .core)], true⟩

/-- The registry once service `a` has been imported (its class stored)
but not yet constructed. -/
def stA : RegSt := ⟨[(str "scalestack", .core), (str "a", .cls aProg)], true⟩

/-- The registry once service `g` has been imported (its class stored)
but not yet constructed — the state `Core.run` starts services from when
configuration handling already loaded them. -/
def stG : RegSt := ⟨[(str "scalestack", .core), (str "g", .cls gProg)], true⟩

theorem selfStart_loop : ∀ fuel : Nat,
    start_service im1 fuel stA (str "a") = .error .outOfFuel ∧
    run_ctor im1 fuel stA aProg = .error .outOfFuel := by
  intro fuel
  induction fuel with
  | zero => exact ⟨rfl, rfl⟩
  | succ f ih =>
    constructor
    · have e : start_service im1 (f + 1) stA (str "a") =
          (match run_ctor im1 f stA aProg with
           | .error e => .error e
           | .ok (st'', obs) =>
             .ok { st'' with services := aset st''.services (str "a") (.inst obs) }) :=
        rfl
      rw [e, ih.2]
    · have e : run_ctor im1 (f + 1) stA aProg =
          (match start_service im1 f stA (str "a") with
           | .error e => .error e
           | .ok st' => run_ctor im1 f st' .ret) := rfl
      rw [e, ih.1]

theorem selfStart_diverges : ∀ fuel : Nat,
    start_service im1 fuel st0 (str "a") = .error .outOfFuel := by
  intro fuel
  match fuel with
  | 0 => rfl
  | 1 => rfl
  | g + 2 =>
    have e : start_service im1 (g + 2) st0 (str "a") =
        (match start_service im1 g stA (str "a") with
         | .error e => .error e
         | .ok st' =>
           if (str "a") = str "scalestack" then .ok st'
           else
             match alookup st'.services (str "a") with
             | some (.cls prog) =>
               match run_ctor im1 (g + 1) st' prog with
               | .error e => .error e
               | .ok (st'', obs) =>
                 .ok { st'' with
                   services := aset st''.services (str "a") (.inst obs) }
             | some (.inst _) => .error .typeError
             | some .core => .error .typeError
             | none => .error .keyError) := rfl
    rw [e, (selfStart_loop g).1]

/-- An import table for the config claims: one importable service `svc`
declaring a single option `port` with compiled default `0`. -/
def mods1 : Str → Option (Str → Option Nat) := fun s =>
  if s = str "svc" then some (fun o => if o = str "port" then some 0 else none)
  else none

/-! ## Claims -/

/-- C2 (corrected): among the bindings whose host filter matches and whose
path-prefix is a prefix of the request path with maximal length, resolve
returns the LATEST-registered one — `match_handler` equals the last
element, in registration order, of the maximal-length candidates, so a
later-registered binding with an equal-length prefix displaces the match
already held. -/
theorem c2_resolve_latest_of_maximal :
    ∀ (hs : List Handler) (host : Option Str) (path : Str),
      match_handler hs host path false = lastBest (candidates hs host path) :=
  fun hs host path => match_handler_eq_lastBest hs host path

/-- C2 counterexample: two legally registered bindings with equal-length
prefix `/a` — first with exact host `h`, then with the wildcard host. The
request (host `h`, path `/ab`) matches both with equal prefix length, and
resolve returns the LATER-registered binding, not the earliest. -/
theorem c2_counterexample :
    add_handler [] ⟨some (str "h"), str "/a", 1⟩ =
      .ok [⟨some (str "h"), str "/a", 1⟩] ∧
    add_handler [⟨some (str "h"), str "/a", 1⟩] ⟨none, str "/a", 2⟩ =
      .ok [⟨some (str "h"), str "/a", 1⟩, ⟨none, str "/a", 2⟩] ∧
    match_handler [⟨some (str "h"), str "/a", 1⟩, ⟨none, str "/a", 2⟩]
      (some (str "h")) (str "/ab") false = some ⟨none, str "/a", 2⟩ ∧
    (⟨none, str "/a", 2⟩ : Handler) ≠ ⟨some (str "h"), str "/a", 1⟩ :=
  ⟨rfl, rfl, by decide, by decide⟩

/-- C3 (code bug): registering a binding whose exact (host, path) pair
already exists does fail and leaves the first binding registered and
resolvable, but the raised exception is a `TypeError` from the message
expression `'%s %s' % handler.host` (two placeholders, one argument), not
the intended `HandlerAlreadyExists`. -/
theorem c3_duplicate_raises_type_error :
    add_handler [⟨some (str "e"), str "/x", 1⟩] ⟨some (str "e"), str "/x", 2⟩ =
      .error .typeError ∧
    match_handler [⟨some (str "e"), str "/x", 1⟩] (some (str "e"))
      (str "/xy") false = some ⟨some (str "e"), str "/x", 1⟩ :=
  ⟨by decide, by decide⟩

/-- C4 (code bug): `set_config` with `overwrite=False` still replaces an
existing value, because the guard `option not in self.config` consults the
top-level dict (keyed by service names), not the service's own section:
with `port=1` stored, setting `port=2` with overwrite false yields `port=2`
and a subsequent get returns the new value. -/
theorem c4_overwrite_false_still_overwrites :
    set_config mods1 [(str "svc", [(str "port", 1)])] (str "svc")
      (str "port") 2 false = .ok [(str "svc", [(str "port", 2)])] ∧
    get_config mods1 [(str "svc", [(str "port", 2)])] (str "svc")
      (str "port") = .ok 2 ∧
    (2 : Nat) ≠ 1 :=
  ⟨rfl, rfl, by decide⟩

/-- C6 (confirmed): for bindings `b1`, `b2` with the same host filter whose
paths satisfy `b1.path` a strictly shorter prefix of `b2.path`, a request
path with `b2.path` as prefix never resolves to `b1`; and when the host
filter accepts the request host, the two-binding collections in either
registration order resolve to `b2`. -/
theorem c6_longer_prefix_wins (hs : List Handler) (host : Option Str)
    (path : Str) (b1 b2 : Handler)
    (_hb1 : b1 ∈ hs) (hb2 : b2 ∈ hs) (hhost : b1.host = b2.host)
    (hpre : b1.path <+: b2.path) (hlen : b1.path.length < b2.path.length)
    (hpath : b2.path <+: path) :
    match_handler hs host path false ≠ some b1 ∧
    (hostOk host b2 = true →
      match_handler [b1, b2] host path false = some b2 ∧
      match_handler [b2, b1] host path false = some b2) := by
  have hpre2 : b2.path.isPrefixOf path = true := by
    rw [List.isPrefixOf_iff_prefix]
    exact hpath
  have hpre1 : b1.path.isPrefixOf path = true := by
    rw [List.isPrefixOf_iff_prefix]
    exact hpre.trans hpath
  constructor
  · intro heq
    rw [match_handler_eq_lastBest] at heq
    unfold lastBest at heq
    have h1 := List.mem_filter.mp (mem_of_getLast?_eq_some heq)
    have hb1cand : b1 ∈ candidates hs host path := h1.1
    have hb1max : b1.path.length = maxPathLen (candidates hs host path) := by
      simpa using h1.2
    have hb1c : isCandidate host path b1 = true :=
      (List.mem_filter.mp hb1cand).2
    have hok1 : hostOk host b1 = true := by
      have h2 := hb1c
      simp only [isCandidate, Bool.and_eq_true] at h2
      exact h2.1
    have hok2 : hostOk host b2 = true := by
      unfold hostOk at hok1 ⊢
      rw [← hhost]
      exact hok1
    have hb2cand : b2 ∈ candidates hs host path :=
      List.mem_filter.mpr ⟨hb2, by simp [isCandidate, hok2, hpre2]⟩
    have := le_maxPathLen hb2cand
    omega
  · intro hok2
    have hok1 : hostOk host b1 = true := by
      unfold hostOk at hok2 ⊢
      rw [hhost]
      exact hok2
    have hc1 : isCandidate host path b1 = true := by
      simp [isCandidate, hok1, hpre1]
    have hc2 : isCandidate host path b2 = true := by
      simp [isCandidate, hok2, hpre2]
    have hne : ¬ b1.path.length = b2.path.length := by omega
    constructor
    · rw [match_handler_eq_lastBest]
      have hcand : candidates [b1, b2] host path = [b1, b2] := by
        simp [candidates, List.filter_cons, hc1, hc2]
      rw [hcand]
      unfold lastBest
      have hmax : maxPathLen [b1, b2] = b2.path.length := by
        simp only [maxPathLen, List.foldr_cons, List.foldr_nil]
        omega
      rw [hmax]
      rw [show ([b1, b2].filter
          (fun h => decide (h.path.length = b2.path.length))) = [b2] from by
        simp [List.filter_cons, hne]]
      rfl
    · rw [match_handler_eq_lastBest]
      have hcand : candidates [b2, b1] host path = [b2, b1] := by
        simp [candidates, List.filter_cons, hc1, hc2]
      rw [hcand]
      unfold lastBest
      have hmax : maxPathLen [b2, b1] = b2.path.length := by
        simp only [maxPathLen, List.foldr_cons, List.foldr_nil]
        omega
      rw [hmax]
      rw [show ([b2, b1].filter
          (fun h => decide (h.path.length = b2.path.length))) = [b2] from by
        simp [List.filter_cons, hne]]
      rfl

/-- Witness for C6 at a concrete collection: with `/a` and `/ab` registered
for any host, the request path `/abc` does not resolve to the `/a`
binding. -/
theorem c6_witness :
    match_handler [⟨none, str "/a", 1⟩, ⟨none, str "/ab", 2⟩] none
      (str "/abc") false ≠ some ⟨none, str "/a", 1⟩ :=
  (c6_longer_prefix_wins [⟨none, str "/a", 1⟩, ⟨none, str "/ab", 2⟩] none
    (str "/abc") ⟨none, str "/a", 1⟩ ⟨none, str "/ab", 2⟩
    (by decide) (by decide) rfl ⟨['b'], rfl⟩ (by decide) ⟨['c'], rfl⟩).1

/-- C5 (confirmed): config lookup precedence for a declared option of
an importable service — the local form `'_' + option` shadows the shared
form when both exist; only the shared form existing returns it; neither
form existing (including the whole service section being absent) returns
the option's compiled default. -/
theorem c5_config_lookup_precedence {V : Type}
    (modules : Str → Option (Str → Option V)) (config : Config V)
    (service opt : Str) (opts : Str → Option V) (dflt : V)
    (hm : modules service = some opts) (ho : opts opt = some dflt) :
    (∀ svcCfg lv sv, alookup config service = some svcCfg →
      alookup svcCfg ('_' :: opt) = some lv →
      alookup svcCfg opt = some sv →
      get_config modules config service opt = .ok lv) ∧
    (∀ svcCfg sv, alookup config service = some svcCfg →
      alookup svcCfg ('_' :: opt) = none →
      alookup svcCfg opt = some sv →
      get_config modules config service opt = .ok sv) ∧
    (∀ svcCfg, alookup config service = some svcCfg →
      alookup svcCfg ('_' :: opt) = none →
      alookup svcCfg opt = none →
      get_config modules config service opt = .ok dflt) ∧
    (alookup config service = none →
      get_config modules config service opt = .ok dflt) := by
  refine ⟨?_, ?_, ?_, ?_⟩
  · intro svcCfg lv sv h1 h2 _h3
    simp [get_config, verify_config, hm, ho, h1, h2]
  · intro svcCfg sv h1 h2 h3
    simp [get_config, verify_config, hm, ho, h1, h2, h3]
  · intro svcCfg h1 h2 h3
    simp [get_config, verify_config, hm, ho, h1, h2, h3]
  · intro h1
    simp [get_config, verify_config, hm, ho, h1]

/-- Witness for C5 at a concrete store: with local `_port = 5` shadowing
shared `port = 1`, get returns `5`. -/
theorem c5_witness :
    get_config mods1 [(str "svc", [('_' :: str "port", 5), (str "port", 1)])]
      (str "svc") (str "port") = .ok 5 :=
  (c5_config_lookup_precedence mods1
    [(str "svc", [('_' :: str "port", 5), (str "port", 1)])]
    (str "svc") (str "port")
    (fun o => if o = str "port" then some 0 else none) 0 rfl rfl).1
    [('_' :: str "port", 5), (str "port", 1)] 5 1 rfl rfl rfl

/-- C7 (confirmed): a handler raising a `StatusCode` is answered with
exactly the signal's status and body; the response headers carry a
`Server` header; when the signal's headers already contain one they are
passed through untouched, otherwise the `Server` header is prepended.
In particular `BadRequest('bad')` yields a 400 response with body `bad`. -/
theorem c7_status_signal_response (hs : List Handler)
    (runOf : Handler → Outcome) (env : Env) (h : Handler) (ev : StatusVal)
    (hm : match_handler hs (envHost env) (envPath env) false = some h)
    (hr : runOf h = .statusExc ev) :
    ((service_call hs runOf env).status = ev.status ∧
     (service_call hs runOf env).body = ev.body ∧
     header_exists (str "Server") (service_call hs runOf env).headers = true ∧
     (header_exists (str "Server") ev.headers = true →
       (service_call hs runOf env).headers = ev.headers) ∧
     (header_exists (str "Server") ev.headers = false →
       (service_call hs runOf env).headers =
         (str "Server", env.serverSoftware) :: ev.headers)) ∧
    service_call [⟨none, str "/b", 0⟩]
      (fun _ => .statusExc (mkBadRequest (some (str "bad")) none))
      ⟨none, some (str "/b"), str "SS"⟩ =
      ⟨str "400 Bad Request", [(str "Server", str "SS")], str "bad"⟩ := by
  have hsc : service_call hs runOf env =
      ⟨ev.status,
       if header_exists (str "Server") ev.headers then ev.headers
       else (str "Server", env.serverSoftware) :: ev.headers,
       ev.body⟩ := by
    simp only [service_call, hm, hr]
  refine ⟨⟨by rw [hsc], by rw [hsc], ?_, ?_, ?_⟩, by decide⟩
  · rw [hsc]
    by_cases hx : header_exists (str "Server") ev.headers = true
    · simp [hx]
    · simp only [Bool.not_eq_true] at hx
      simp only [hx, Bool.false_eq_true, if_false]
      simp [header_exists]
  · intro hx
    rw [hsc, if_pos hx]
  · intro hx
    rw [hsc, if_neg (by simp [hx])]

/-- Witness for C7 at the concrete `BadRequest('bad')` scenario. -/
theorem c7_witness :
    (service_call [⟨none, str "/b", 0⟩]
      (fun _ => .statusExc (mkBadRequest (some (str "bad")) none))
      ⟨none, some (str "/b"), str "SS"⟩).status =
      (mkBadRequest (some (str "bad")) none).status :=
  ((c7_status_signal_response [⟨none, str "/b", 0⟩]
    (fun _ => .statusExc (mkBadRequest (some (str "bad")) none))
    ⟨none, some (str "/b"), str "SS"⟩ ⟨none, str "/b", 0⟩
    (mkBadRequest (some (str "bad")) none) (by decide) rfl).1).1

/-- C8 (confirmed): a handler raising anything that is not a `StatusCode`
is answered with `500 Internal Server Error`, the lone `Server` header,
and an empty body — for every fault detail, so nothing of the fault
reaches the response, and `service_call` returns a response rather than
propagating. -/
theorem c8_fault_response (hs : List Handler) (runOf : Handler → Outcome)
    (env : Env) (h : Handler) (d : Str)
    (hm : match_handler hs (envHost env) (envPath env) false = some h)
    (hr : runOf h = .fault d) :
    service_call hs runOf env =
      ⟨str "500 Internal Server Error", [(str "Server", env.serverSoftware)],
       str ""⟩ := by
  simp only [service_call, hm, hr]
  rfl

/-- Witness for C8 at a concrete faulting handler. -/
theorem c8_witness :
    service_call [⟨none, str "/b", 0⟩] (fun _ => .fault (str "boom"))
      ⟨none, some (str "/b"), str "SS"⟩ =
      ⟨str "500 Internal Server Error", [(str "Server", str "SS")], str ""⟩ :=
  c8_fault_response [⟨none, str "/b", 0⟩] (fun _ => .fault (str "boom"))
    ⟨none, some (str "/b"), str "SS"⟩ ⟨none, str "/b", 0⟩ (str "boom")
    (by decide) rfl

/-- C9 (confirmed): query parsing splits on `&`, splits each field on the
first `=`, and stores null for a field with no `=` — the example
`a=1&b` parses to `a ↦ 1, b ↦ None`; every lookup in the parsed dict is
the last per-field value, fields being the `&`-split of the query string
parsed by `parsePair`; and a field with no `=` parses to its (stripped)
key with the null value. -/
theorem c9_query_parsing :
    parse_parameters (some (str "a=1&b")) =
      [(str "a", some (str "1")), (str "b", none)] ∧
    (∀ (qs k : Str),
      alookup (parse_parameters (some qs)) k =
        lastAssoc ((pySplit '&' qs).map parsePair) k) ∧
    (∀ chunk : Str, (pySplitOnce '=' chunk).2 = none →
      parsePair chunk = (pyStrip chunk, none)) := by
  refine ⟨by decide, ?_, ?_⟩
  · intro qs k
    rw [show parse_parameters (some qs) = (pySplit '&' qs).foldl paramStep []
      from rfl]
    rw [foldl_paramStep_eq, alookup_foldl_aset]
    cases hl : lastAssoc ((pySplit '&' qs).map parsePair) k with
    | some v => rfl
    | none => rfl
  · intro chunk hchunk
    have h1 := @pySplitOnce_none_fst '=' chunk hchunk
    simp [parsePair, hchunk, h1]

/-- Witness for C9: the field `b` with no `=` parses to a null value. -/
theorem c9_witness : parsePair (str "b") = (str "b", none) :=
  c9_query_parsing.2.2 (str "b") rfl

/-- C10 (confirmed): a present-but-empty `QUERY_STRING` parses to the
one-entry dict mapping the empty key to the null value — not the empty
dict; only an absent `QUERY_STRING` gives the empty dict, and indeed a
present query string always produces a non-empty dict. -/
theorem c10_empty_query_string :
    parse_parameters none = [] ∧
    parse_parameters (some (str "")) = [(str "", none)] ∧
    parse_parameters (some (str "")) ≠ [] ∧
    (∀ qs : Str, parse_parameters (some qs) ≠ []) := by
  refine ⟨rfl, rfl, by decide, ?_⟩
  intro qs
  rw [show parse_parameters (some qs) = (pySplit '&' qs).foldl paramStep []
    from rfl]
  cases hsp : pySplit '&' qs with
  | nil => exact absurd hsp (pySplit_ne_nil '&' qs)
  | cons c t =>
    rw [List.foldl_cons]
    apply parse_ne_nil_invariant
    rw [paramStep_eq_aset]
    unfold aset
    simp [alookup]

/-- Witness for C10: a concrete present query string parses to a
non-empty dict. -/
theorem c10_witness : parse_parameters (some (str "x")) ≠ [] :=
  c10_empty_query_string.2.2.2 (str "x")

/-- C1 (corrected): the registry performs no cycle detection and has no
`CircularDependencyError`. A service whose constructor re-requests itself
through `start_service` recurses without bound — it exhausts every finite
fuel budget instead of failing with a dedicated error — while a
constructor re-requesting itself through `get_service` is handed the
stored service class (not an instance) and construction completes with
that class as the observed value. -/
theorem c1_no_cycle_detection :
    (∀ fuel : Nat, start_service im1 fuel st0 (str "a") = .error .outOfFuel) ∧
    start_service im1 10 stG (str "g") =
      .ok ⟨[(str "scalestack", .core), (str "g", .inst [.cls gProg])], true⟩ :=
  ⟨selfStart_diverges, rfl⟩

/-- C1 counterexample: starting the self-requesting service is still
recursing after one hundred nested registry calls (no
`CircularDependencyError` exists to be raised), and `get_service` on a
service whose class is loaded but not constructed returns the class
object. -/
theorem c1_counterexample :
    start_service im1 100 st0 (str "a") = .error .outOfFuel ∧
    get_service im1 5 stG (str "g") = .ok (stG, .cls gProg) :=
  ⟨rfl, rfl⟩

end ScaleStack
